import Mathlib

/-!
Verification of the watershed-on-anisotropic-distance-transform pipeline
(`watersheds/ws_anisotropic_distance_transform.py`).

The pipeline is orchestration code around black-box numeric kernels
(vigra's distance transform, Gaussian smoothing, local-maxima detection,
connected-component labeling, and the `wsdt` package's seed grouping and
in-place watershed).  We embed the orchestration shallowly: a 3D volume is
a function `Nat → Nat → Nat → ℚ`, a label volume a function into `Nat`
whose stored values carry uint32 (mod 2^32) semantics as in the numpy
arrays of the source, and the kernels are a structure of function
parameters, so every theorem quantifies over all kernel behaviours.
The local-maxima marker (a NaN sentinel in the source) is modelled as an
explicit boolean marker slice.
-/

namespace Watersheds

/-- A dense 3D real-valued volume, indexed (z, y, x) as in the source. -/
abbrev Vol := Nat → Nat → Nat → ℚ

/-- A dense 3D boolean mask. -/
abbrev Mask3 := Nat → Nat → Nat → Bool

/-- A dense 3D integer label volume (stored values are uint32 in the source). -/
abbrev LabelVol := Nat → Nat → Nat → Nat

/-- A single 2D z-slice of a real volume. -/
abbrev Slice2 := Nat → Nat → ℚ

/-- A single 2D boolean marker slice (maximum / not-maximum). -/
abbrev MarkerSlice := Nat → Nat → Bool

/-- A single 2D label slice. -/
abbrev LabelSlice := Nat → Nat → Nat

/-- The black-box numeric kernels the orchestration calls out to.
`distanceTransform mask background pitch` models
`vigra.filters.distanceTransform` (with its `background` flag and per-axis
`pixel_pitch`); the two smoothing fields model
`vigra.filters.gaussianSmoothing` with a sigma triple resp. a scalar sigma;
`localMaxima` models `vigra.analysis.localMaxima` returning an explicit
marker; `labelMultiArrayWithBackground` and `group_seeds_by_distance` turn a
marker slice into seed labels; `iterative_inplace_watershed` grows a seed
slice on a height slice with a minimum-segment-size filter and returns the
grown labels together with the slice's max-label count. -/
structure Kernels where
  distanceTransform : Mask3 → Bool → ℚ × ℚ × ℚ → Vol
  gaussianSmoothing3 : Vol → ℚ × ℚ × ℚ → Vol
  gaussianSmoothing1 : Vol → ℚ → Vol
  localMaxima : Slice2 → MarkerSlice
  labelMultiArrayWithBackground : MarkerSlice → LabelSlice
  group_seeds_by_distance : MarkerSlice → Slice2 → LabelSlice
  iterative_inplace_watershed : Slice2 → LabelSlice → Nat → LabelSlice × Nat

/-- The membrane mask `pmap >= threshold` of `signed_anisotropic_dt`. -/
def binary_membranes (pmap : Vol) (threshold : ℚ) : Mask3 :=
  fun z y x => decide (pmap z y x ≥ threshold)

/-- `signed_anisotropic_dt(pmap, threshold, anisotropy, preserve_membrane_pmaps)`:
threshold the probability map, compute the anisotropic distance to the
membrane mask with pixel pitch `[anisotropy, 1, 1]`, and either overwrite the
masked voxels with the negated probabilities (`preserve_membrane_pmaps`) or
subtract the 1-adjusted distance-to-non-membrane transform in place. -/
def signed_anisotropic_dt (K : Kernels) (pmap : Vol) (threshold anisotropy : ℚ)
    (preserve_membrane_pmaps : Bool) : Vol :=
  let mask := binary_membranes pmap threshold
  let distance_to_membrane := K.distanceTransform mask true (anisotropy, 1, 1)
  if preserve_membrane_pmaps then
    fun z y x =>
      if mask z y x then -(pmap z y x) else distance_to_membrane z y x
  else
    let distance_to_nonmembrane := K.distanceTransform mask false (anisotropy, 1, 1)
    fun z y x =>
      distance_to_membrane z y x -
        (if 0 < distance_to_nonmembrane z y x then distance_to_nonmembrane z y x - 1
         else distance_to_nonmembrane z y x)

/-- `anisotropic_seeds(distance_to_membrane, anisotropy, sigma_seeds, group_seeds)`:
smooth the full 3D field with sigmas `(1/anisotropy, 1, 1)` (note: the source
passes exactly this tuple, so the `sigma_seeds` argument is never used), then
per z-slice detect local maxima and label them, either by seed grouping
against the unsmoothed field or by connected-component labeling.  `nz` is
`distance_to_membrane.shape[0]`; slices outside the z range keep the zeros of
the `np.zeros_like` initialisation. -/
def anisotropic_seeds (K : Kernels) (distance_to_membrane : Vol) (nz : Nat)
    (anisotropy sigma_seeds : ℚ) (group_seeds : Bool) : LabelVol :=
  let seed_map := K.gaussianSmoothing3 distance_to_membrane (1 / anisotropy, 1, 1)
  fun z y x =>
    if z < nz then
      let seeds_z_marker := K.localMaxima (fun y x => seed_map z y x)
      let seeds_z :=
        if group_seeds then
          K.group_seeds_by_distance seeds_z_marker (fun y x => distance_to_membrane z y x)
        else
          K.labelMultiArrayWithBackground seeds_z_marker
      seeds_z y x
    else 0

/-- The height-map selection of `ws_anisotropic_distance_transform` (lines
102-110): grow on the probability map if `grow_on_pmap`, else on the negated
distance transform; if `sigma_weights` is nonzero, replace the height map by
`gaussianSmoothing(hmap, 1/sigma_weights)` (note: the source passes the
scalar `1. / sigma_weights`). -/
def height_map (K : Kernels) (pmap distance_to_membrane : Vol)
    (grow_on_pmap : Bool) (sigma_weights : ℚ) : Vol :=
  let hmap := if grow_on_pmap then pmap else fun z y x => -(distance_to_membrane z y x)
  if sigma_weights ≠ 0 then K.gaussianSmoothing1 hmap (1 / sigma_weights) else hmap

/-- 2^32, the modulus of the uint32 arithmetic of the numpy label arrays. -/
def u32 : Nat := 2 ^ 32

/-- Storing a watershed label into the uint32 `seeds` array. -/
def u32_store (v : Nat) : Nat := v % u32

/-- `seeds[z] -= 1` on a uint32 value: subtraction wraps modulo 2^32. -/
def u32_dec1 (v : Nat) : Nat := (v + (u32 - 1)) % u32

/-- `seeds[z] += offset` on a uint32 value: the in-place add wraps modulo 2^32. -/
def u32_add (v offset : Nat) : Nat := (v + offset) % u32

/-- One iteration of the stitching loop at slice `z`: run the in-place
watershed on the current slice, decrement its labels by 1 (uint32 wrap), add
the running offset (uint32 wrap), and advance the offset by the returned
max-label count.  The state is the label volume plus the running offset. -/
def stitchStep (K : Kernels) (hmap : Vol) (min_segment_size : Nat)
    (st : LabelVol × Nat) (z : Nat) : LabelVol × Nat :=
  (fun z' y x =>
      if z' = z then
        u32_add (u32_dec1 (u32_store
          ((K.iterative_inplace_watershed (fun y x => hmap z y x)
              (fun y x => st.1 z y x) min_segment_size).1 y x))) st.2
      else st.1 z' y x,
   st.2 + (K.iterative_inplace_watershed (fun y x => hmap z y x)
      (fun y x => st.1 z y x) min_segment_size).2)

/-- The stitching loop of `ws_anisotropic_distance_transform` (lines 112-118):
fold `stitchStep` over the slices in increasing z order, starting from the
seed volume and offset 0. -/
def ws_stitch (K : Kernels) (hmap : Vol) (seeds : LabelVol)
    (nz min_segment_size : Nat) : LabelVol × Nat :=
  (List.range nz).foldl (stitchStep K hmap min_segment_size) (seeds, 0)

/-- The body of `ws_anisotropic_distance_transform` after the shape asserts:
build the signed distance field, extract seeds, select the height map, and
stitch the per-slice watershed results. -/
def ws_core (K : Kernels) (pmap : Vol) (nz : Nat)
    (threshold anisotropy sigma_seeds sigma_weights : ℚ)
    (min_segment_size : Nat)
    (preserve_membrane_pmaps grow_on_pmap group_seeds : Bool) : LabelVol × Nat :=
  let distance_to_membrane :=
    signed_anisotropic_dt K pmap threshold anisotropy preserve_membrane_pmaps
  let seeds := anisotropic_seeds K distance_to_membrane nz anisotropy sigma_seeds group_seeds
  let hmap := height_map K pmap distance_to_membrane grow_on_pmap sigma_weights
  ws_stitch K hmap seeds nz min_segment_size

/-- The failure condition of the entry point's shape asserts. -/
inductive WsError where
  | invalidShape
deriving DecidableEq

/-- A dense real numpy array of arbitrary rank: a shape list plus data
indexed by multi-indices, as handed to the entry point. -/
structure NDArrayQ where
  shape : List Nat
  data : List Nat → ℚ

/-- The shape invariant asserted by the entry point: the array is 3D and the
first (z) extent is strictly smaller than both in-plane extents. -/
def good_shape : List Nat → Bool
  | [nz, ny, nx] => decide (nz < ny) && decide (nz < nx)
  | _ => false

/-- The entry point `ws_anisotropic_distance_transform(pmap, threshold,
anisotropy, sigma_seeds, sigma_weights, min_segment_size,
preserve_membrane_pmaps, grow_on_pmap, group_seeds)`: assert the shape
invariant, then run the pipeline and return the stitched label volume with
the final running offset. -/
def ws_anisotropic_distance_transform (K : Kernels) (arr : NDArrayQ)
    (threshold anisotropy sigma_seeds sigma_weights : ℚ)
    (min_segment_size : Nat)
    (preserve_membrane_pmaps grow_on_pmap group_seeds : Bool) :
    Except WsError (LabelVol × Nat) :=
  match arr.shape with
  | [nz, ny, nx] =>
      if nz < ny ∧ nz < nx then
        Except.ok (ws_core K (fun z y x => arr.data [z, y, x]) nz threshold anisotropy
          sigma_seeds sigma_weights min_segment_size
          preserve_membrane_pmaps grow_on_pmap group_seeds)
      else Except.error WsError.invalidShape
  | _ => Except.error WsError.invalidShape

/-- The watershed call the stitching loop performs on slice `z` when the loop
reaches it with the original seed slice (the loop only mutates slice `z` at
iteration `z`, so this is the call it actually makes). -/
def slice_watershed (K : Kernels) (hmap : Vol) (seeds : LabelVol)
    (min_segment_size z : Nat) : LabelSlice × Nat :=
  K.iterative_inplace_watershed (fun y x => hmap z y x) (fun y x => seeds z y x)
    min_segment_size

/-- The running offset the stitching loop holds when it reaches slice `z`:
the sum of the max-label counts of all earlier slices. -/
def offset_before (K : Kernels) (hmap : Vol) (seeds : LabelVol)
    (min_segment_size z : Nat) : Nat :=
  ((List.range z).map fun w => (slice_watershed K hmap seeds min_segment_size w).2).sum

/-- The distance field the pipeline hands to seed extraction and height-map
selection, as a function of the entry arguments. -/
def ws_dt (K : Kernels) (pmap : Vol) (threshold anisotropy : ℚ)
    (preserve_membrane_pmaps : Bool) : Vol :=
  signed_anisotropic_dt K pmap threshold anisotropy preserve_membrane_pmaps

/-- The height map `ws_core` grows on, as a function of the entry arguments. -/
def ws_hmap (K : Kernels) (pmap : Vol) (threshold anisotropy sigma_weights : ℚ)
    (preserve_membrane_pmaps grow_on_pmap : Bool) : Vol :=
  height_map K pmap (ws_dt K pmap threshold anisotropy preserve_membrane_pmaps)
    grow_on_pmap sigma_weights

/-- The seed volume `ws_core` stitches, as a function of the entry arguments. -/
def ws_seeds (K : Kernels) (pmap : Vol) (nz : Nat)
    (threshold anisotropy sigma_seeds : ℚ)
    (preserve_membrane_pmaps group_seeds : Bool) : LabelVol :=
  anisotropic_seeds K (ws_dt K pmap threshold anisotropy preserve_membrane_pmaps)
    nz anisotropy sigma_seeds group_seeds

theorem ws_core_eq (K : Kernels) (pmap : Vol) (nz : Nat)
    (threshold anisotropy sigma_seeds sigma_weights : ℚ)
    (min_segment_size : Nat)
    (preserve_membrane_pmaps grow_on_pmap group_seeds : Bool) :
    ws_core K pmap nz threshold anisotropy sigma_seeds sigma_weights
        min_segment_size preserve_membrane_pmaps grow_on_pmap group_seeds
      = ws_stitch K
          (ws_hmap K pmap threshold anisotropy sigma_weights
            preserve_membrane_pmaps grow_on_pmap)
          (ws_seeds K pmap nz threshold anisotropy sigma_seeds
            preserve_membrane_pmaps group_seeds)
          nz min_segment_size := rfl

theorem offset_before_zero (K : Kernels) (hmap : Vol) (seeds : LabelVol)
    (m : Nat) : offset_before K hmap seeds m 0 = 0 := rfl

theorem offset_before_succ (K : Kernels) (hmap : Vol) (seeds : LabelVol)
    (m k : Nat) :
    offset_before K hmap seeds m (k + 1)
      = offset_before K hmap seeds m k + (slice_watershed K hmap seeds m k).2 := by
  simp [offset_before, List.range_succ]

theorem offset_before_mono (K : Kernels) (hmap : Vol) (seeds : LabelVol)
    (m : Nat) {a b : Nat} (h : a ≤ b) :
    offset_before K hmap seeds m a ≤ offset_before K hmap seeds m b := by
  induction h with
  | refl => exact Nat.le_refl _
  | step h ih =>
    exact Nat.le_trans ih (by rw [offset_before_succ]; exact Nat.le_add_right _ _)

/-- If every slice's watershed reports the same max-label count `c`, the
running offset before slice `z` is `z * c`. -/
theorem offset_before_const (K : Kernels) (hmap : Vol) (seeds : LabelVol)
    (m : Nat) (c : Nat)
    (h : ∀ w, (slice_watershed K hmap seeds m w).2 = c) (z : Nat) :
    offset_before K hmap seeds m z = z * c := by
  induction z with
  | zero => rw [offset_before_zero, Nat.zero_mul]
  | succ z ih => rw [offset_before_succ, ih, h z, Nat.succ_mul]

/-- The invariant of the stitching loop after processing the first `k`
slices: the running offset is the sum of the processed slices' max counts,
slices at index ≥ `k` still hold the original seeds, and every processed
slice `z < k` holds the wrapped renumbering of the watershed run on the
original seed slice with the offset the loop held at slice `z`. -/
theorem ws_stitch_inv (K : Kernels) (hmap : Vol) (seeds : LabelVol)
    (m : Nat) (k : Nat) :
    ((List.range k).foldl (stitchStep K hmap m) (seeds, 0)).2
        = offset_before K hmap seeds m k
      ∧ (∀ z y x, k ≤ z →
          ((List.range k).foldl (stitchStep K hmap m) (seeds, 0)).1 z y x
            = seeds z y x)
      ∧ (∀ z y x, z < k →
          ((List.range k).foldl (stitchStep K hmap m) (seeds, 0)).1 z y x
            = u32_add (u32_dec1 (u32_store
                ((slice_watershed K hmap seeds m z).1 y x)))
                (offset_before K hmap seeds m z)) := by
  induction k with
  | zero =>
    refine ⟨rfl, fun z y x _ => rfl, fun z y x hz => absurd hz (Nat.not_lt_zero z)⟩
  | succ k ih =>
    obtain ⟨ihOff, ihHi, ihLo⟩ := ih
    rw [List.range_succ, List.foldl_append, List.foldl_cons, List.foldl_nil]
    set st := (List.range k).foldl (stitchStep K hmap m) (seeds, 0) with hst
    have hslice : (fun y x => st.1 k y x) = (fun y x => seeds k y x) := by
      funext y x; exact ihHi k y x (Nat.le_refl k)
    have hws : K.iterative_inplace_watershed (fun y x => hmap k y x)
        (fun y x => st.1 k y x) m = slice_watershed K hmap seeds m k := by
      rw [hslice]; rfl
    refine ⟨?_, ?_, ?_⟩
    · show st.2 + _ = _
      rw [hws, ihOff, offset_before_succ]
    · intro z y x hz
      show (if z = k then _ else st.1 z y x) = seeds z y x
      rw [if_neg (by omega), ihHi z y x (by omega)]
    · intro z y x hz
      rcases Nat.lt_succ_iff_lt_or_eq.mp hz with hzk | hzk
      · show (if z = k then _ else st.1 z y x) = _
        rw [if_neg (by omega), ihLo z y x hzk]
      · subst hzk
        show (if z = z then _ else st.1 z y x) = _
        rw [if_pos rfl, hws, ihOff]

/-- The final running offset returned by the stitching loop is the sum of the
per-slice max-label counts. -/
theorem ws_stitch_count (K : Kernels) (hmap : Vol) (seeds : LabelVol)
    (nz m : Nat) :
    (ws_stitch K hmap seeds nz m).2 = offset_before K hmap seeds m nz :=
  (ws_stitch_inv K hmap seeds m nz).1

/-- The stitched label of an in-range voxel: the watershed label of the
slice (stored as uint32), decremented by 1 with uint32 wrap, plus the
running offset, with uint32 wrap. -/
theorem ws_stitch_label (K : Kernels) (hmap : Vol) (seeds : LabelVol)
    (nz m : Nat) (z y x : Nat) (hz : z < nz) :
    (ws_stitch K hmap seeds nz m).1 z y x
      = u32_add (u32_dec1 (u32_store ((slice_watershed K hmap seeds m z).1 y x)))
          (offset_before K hmap seeds m z) :=
  (ws_stitch_inv K hmap seeds m nz).2.2 z y x hz

/-- Renumbering arithmetic for a positive label that does not wrap:
store, decrement and offset-add compose to the plain `ℓ - 1 + offset`. -/
theorem u32_renumber (ℓ offset : Nat) (h1 : 1 ≤ ℓ) (h2 : ℓ + offset ≤ u32) :
    u32_add (u32_dec1 (u32_store ℓ)) offset = ℓ - 1 + offset := by
  have hu : u32 = 4294967296 := rfl
  simp only [u32_add, u32_dec1, u32_store, hu] at *
  omega

/-- Renumbering arithmetic for an arbitrary positive stored label: the
result is `(ℓ - 1 + offset) % 2^32` where `ℓ` is the stored uint32 value. -/
theorem u32_renumber_mod (ℓ offset : Nat) (h1 : 1 ≤ ℓ % u32) :
    u32_add (u32_dec1 (u32_store ℓ)) offset = (ℓ % u32 - 1 + offset) % u32 := by
  have hu : u32 = 4294967296 := rfl
  simp only [u32_add, u32_dec1, u32_store, hu] at *
  omega

/-- Pointwise evaluation of `signed_anisotropic_dt` in the
`preserve_membrane_pmaps = true` branch. -/
theorem signed_dt_true_eval (K : Kernels) (pmap : Vol) (threshold anisotropy : ℚ)
    (z y x : Nat) :
    signed_anisotropic_dt K pmap threshold anisotropy true z y x
      = if binary_membranes pmap threshold z y x then -(pmap z y x)
        else K.distanceTransform (binary_membranes pmap threshold) true
          (anisotropy, 1, 1) z y x := rfl

/-- Pointwise evaluation of `signed_anisotropic_dt` in the
`preserve_membrane_pmaps = false` branch. -/
theorem signed_dt_false_eval (K : Kernels) (pmap : Vol) (threshold anisotropy : ℚ)
    (z y x : Nat) :
    signed_anisotropic_dt K pmap threshold anisotropy false z y x
      = K.distanceTransform (binary_membranes pmap threshold) true (anisotropy, 1, 1) z y x
        - (if 0 < K.distanceTransform (binary_membranes pmap threshold) false
              (anisotropy, 1, 1) z y x
           then K.distanceTransform (binary_membranes pmap threshold) false
              (anisotropy, 1, 1) z y x - 1
           else K.distanceTransform (binary_membranes pmap threshold) false
              (anisotropy, 1, 1) z y x) := rfl

/-- Claim C1: the stitcher walks the slices in increasing z order with a
running offset that starts at 0 and advances by each slice's returned
max-label count: a voxel whose slice-watershed label is positive (as a
stored uint32) receives that label decremented by 1 plus the sum of the
earlier slices' counts (modulo 2^32), and the pipeline returns the sum of
all per-slice counts as the total segment count. -/
theorem stitcher_offsets_positive_labels (K : Kernels) (pmap : Vol) (nz : Nat)
    (threshold anisotropy sigma_seeds sigma_weights : ℚ) (m : Nat)
    (pres grow grp : Bool) (z y x : Nat) (hz : z < nz)
    (hpos : 1 ≤ u32_store ((slice_watershed K
        (ws_hmap K pmap threshold anisotropy sigma_weights pres grow)
        (ws_seeds K pmap nz threshold anisotropy sigma_seeds pres grp) m z).1 y x)) :
    (ws_core K pmap nz threshold anisotropy sigma_seeds sigma_weights m pres grow grp).2
        = offset_before K
            (ws_hmap K pmap threshold anisotropy sigma_weights pres grow)
            (ws_seeds K pmap nz threshold anisotropy sigma_seeds pres grp) m nz
      ∧ (ws_core K pmap nz threshold anisotropy sigma_seeds sigma_weights m
            pres grow grp).1 z y x
          = (u32_store ((slice_watershed K
                (ws_hmap K pmap threshold anisotropy sigma_weights pres grow)
                (ws_seeds K pmap nz threshold anisotropy sigma_seeds pres grp) m z).1 y x)
              - 1
              + offset_before K
                  (ws_hmap K pmap threshold anisotropy sigma_weights pres grow)
                  (ws_seeds K pmap nz threshold anisotropy sigma_seeds pres grp) m z)
            % u32 := by
  rw [ws_core_eq]
  refine ⟨ws_stitch_count _ _ _ _ _, ?_⟩
  rw [ws_stitch_label _ _ _ _ _ _ _ _ hz]
  exact u32_renumber_mod _ _ hpos

/-- A kernel whose slice watershed labels every voxel 3 and reports a
max-label count of 7, with all other kernels trivial. -/
def constWsK : Kernels :=
  ⟨fun _ _ _ => fun _ _ _ => 0,
   fun _ _ => fun _ _ _ => 0,
   fun _ _ => fun _ _ _ => 0,
   fun _ => fun _ _ => false,
   fun _ => fun _ _ => 0,
   fun _ _ => fun _ _ => 0,
   fun _ _ _ => (fun _ _ => 3, 7)⟩

theorem stitcher_offsets_positive_labels_witness :
    (ws_core constWsK (fun _ _ _ => 0) 2 1 1 1 0 0 true true false).2 = 14
      ∧ (ws_core constWsK (fun _ _ _ => 0) 2 1 1 1 0 0 true true false).1 1 0 0 = 9 := by
  have h := stitcher_offsets_positive_labels constWsK (fun _ _ _ => 0) 2 1 1 1 0 0
    true true false 1 0 0 (by omega) (by decide)
  exact ⟨by rw [h.1]; decide, by rw [h.2]; decide⟩

/-- Claim C3 (code bug): the seed extractor never uses its `sigma_seeds`
argument - the source smooths with the fixed sigma tuple
`(1/anisotropy, 1, 1)` - so the produced seed volume is identical for any
two values of `sigma_seeds`, contradicting the documented role of the
argument ("smoothing factor for distance transform used for finding
seeds") and the spec's `(sigmaSeeds/a, sigmaSeeds, sigmaSeeds)`. -/
theorem anisotropic_seeds_ignores_sigma_seeds (K : Kernels)
    (distance_to_membrane : Vol) (nz : Nat) (anisotropy s1 s2 : ℚ)
    (group_seeds : Bool) :
    anisotropic_seeds K distance_to_membrane nz anisotropy s1 group_seeds
      = anisotropic_seeds K distance_to_membrane nz anisotropy s2 group_seeds := rfl

/-- Claim C4 (amended): the height-map selector takes the probability map
when `grow_on_pmap` and the negated distance field otherwise, and when
`sigma_weights` is nonzero it smooths the whole 3D height map with the
scalar Gaussian scale `1/sigma_weights` - the inverse of the given value,
not the value itself. -/
theorem height_map_smooths_with_inverse_sigma (K : Kernels) (pmap dtm : Vol)
    (grow_on_pmap : Bool) (sigma_weights : ℚ) (z y x : Nat) :
    height_map K pmap dtm true 0 z y x = pmap z y x
      ∧ height_map K pmap dtm false 0 z y x = -(dtm z y x)
      ∧ (sigma_weights ≠ 0 →
          height_map K pmap dtm grow_on_pmap sigma_weights z y x
            = K.gaussianSmoothing1
                (if grow_on_pmap then pmap else fun a b c => -(dtm a b c))
                (1 / sigma_weights) z y x) := by
  refine ⟨by simp [height_map], by simp [height_map], fun hsw => ?_⟩
  simp only [height_map]
  rw [if_pos hsw]

/-- A kernel whose scalar Gaussian smoothing returns the sigma it was
handed, at every voxel, exposing which scale the selector passes. -/
def sigmaProbeK : Kernels :=
  ⟨fun _ _ _ => fun _ _ _ => 0,
   fun _ _ => fun _ _ _ => 0,
   fun _ s => fun _ _ _ => s,
   fun _ => fun _ _ => false,
   fun _ => fun _ _ => 0,
   fun _ _ => fun _ _ => 0,
   fun _ _ _ => (fun _ _ => 0, 0)⟩

/-- Claim C4 as stated is false at a concrete input: with `sigma_weights
= 2` the selector smooths with scale 1/2, which differs from what smoothing
with the claimed scale `sigma_weights = 2` would give under a kernel that
reports its scale. -/
theorem height_map_sigma_cex :
    height_map sigmaProbeK (fun _ _ _ => 3) (fun _ _ _ => 5) true 2 0 0 0 = 1 / 2
      ∧ height_map sigmaProbeK (fun _ _ _ => 3) (fun _ _ _ => 5) true 2 0 0 0
          ≠ sigmaProbeK.gaussianSmoothing1 (fun _ _ _ => 3) 2 0 0 0 := by
  constructor
  · norm_num [height_map, sigmaProbeK]
  · norm_num [height_map, sigmaProbeK]

theorem height_map_smooths_with_inverse_sigma_witness :
    height_map sigmaProbeK (fun _ _ _ => 3) (fun _ _ _ => 5) true 0 0 0 0 = 3
      ∧ height_map sigmaProbeK (fun _ _ _ => 3) (fun _ _ _ => 5) false 0 0 0 0 = -5
      ∧ height_map sigmaProbeK (fun _ _ _ => 3) (fun _ _ _ => 5) true 2 0 0 0
          = sigmaProbeK.gaussianSmoothing1
              (if true then (fun _ _ _ => (3:ℚ)) else fun a b c => -(5:ℚ)) (1 / 2) 0 0 0 := by
  have h := height_map_smooths_with_inverse_sigma sigmaProbeK
    (fun _ _ _ => 3) (fun _ _ _ => 5) true 2 0 0 0
  exact ⟨h.1, h.2.1, h.2.2 (by norm_num)⟩

/-- Claim C5: with `preserve_membrane_pmaps` the distance-field builder sets
every masked voxel (probability ≥ threshold) to the negated original
probability; without it, it subtracts from `distance_to_membrane` the
distance-to-non-membrane transform with 1 subtracted from its strictly
positive values. -/
theorem signed_dt_branch_behaviour (K : Kernels) (pmap : Vol)
    (threshold anisotropy : ℚ) (z y x : Nat) :
    (threshold ≤ pmap z y x →
        signed_anisotropic_dt K pmap threshold anisotropy true z y x = -(pmap z y x))
      ∧ signed_anisotropic_dt K pmap threshold anisotropy false z y x
          = K.distanceTransform (binary_membranes pmap threshold) true
              (anisotropy, 1, 1) z y x
            - (if 0 < K.distanceTransform (binary_membranes pmap threshold) false
                  (anisotropy, 1, 1) z y x
               then K.distanceTransform (binary_membranes pmap threshold) false
                  (anisotropy, 1, 1) z y x - 1
               else K.distanceTransform (binary_membranes pmap threshold) false
                  (anisotropy, 1, 1) z y x) := by
  refine ⟨fun h => ?_, signed_dt_false_eval K pmap threshold anisotropy z y x⟩
  have hm : binary_membranes pmap threshold z y x = true := by
    simpa [binary_membranes] using h
  rw [signed_dt_true_eval, if_pos hm]

/-- A kernel whose distance transform is the constant 3 for the
background-distance call and the constant 2 for the foreground call. -/
def constDtK : Kernels :=
  ⟨fun _ bg _ => fun _ _ _ => if bg then 3 else 2,
   fun _ _ => fun _ _ _ => 0,
   fun _ _ => fun _ _ _ => 0,
   fun _ => fun _ _ => false,
   fun _ => fun _ _ => 0,
   fun _ _ => fun _ _ => 0,
   fun _ _ _ => (fun _ _ => 0, 0)⟩

theorem signed_dt_branch_behaviour_witness :
    (1:ℚ)/2 ≤ 1
      ∧ signed_anisotropic_dt constDtK (fun _ _ _ => 1) (1/2) 1 true 0 0 0 = -1
      ∧ signed_anisotropic_dt constDtK (fun _ _ _ => 1) (1/2) 1 false 0 0 0 = 2 := by
  have h := signed_dt_branch_behaviour constDtK (fun _ _ _ => 1) (1/2) 1 0 0 0
  refine ⟨by norm_num, ?_, ?_⟩
  · rw [h.1 (by norm_num)]
  · rw [h.2]; norm_num [constDtK]

/-- Claim C6: under the distance-transform kernel contract (zero on the
mask and strictly positive off it for the membrane-distance call; at least
one voxel pitch on the mask and zero off it for the non-membrane call, the
intended regime of an anisotropy factor ≥ 1) and probabilities in [0,1],
the signed field is strictly positive at every voxel outside the
thresholded mask and ≤ 0 at every voxel inside it, for both settings of
`preserve_membrane_pmaps`. -/
theorem signed_dt_sign_invariant (K : Kernels) (pmap : Vol)
    (threshold anisotropy : ℚ)
    (hp : ∀ z y x, 0 ≤ pmap z y x ∧ pmap z y x ≤ 1)
    (hdtM : ∀ z y x,
      (binary_membranes pmap threshold z y x = true →
        K.distanceTransform (binary_membranes pmap threshold) true
          (anisotropy, 1, 1) z y x = 0)
      ∧ (binary_membranes pmap threshold z y x = false →
        0 < K.distanceTransform (binary_membranes pmap threshold) true
          (anisotropy, 1, 1) z y x))
    (hdtN : ∀ z y x,
      (binary_membranes pmap threshold z y x = true →
        1 ≤ K.distanceTransform (binary_membranes pmap threshold) false
          (anisotropy, 1, 1) z y x)
      ∧ (binary_membranes pmap threshold z y x = false →
        K.distanceTransform (binary_membranes pmap threshold) false
          (anisotropy, 1, 1) z y x = 0)) :
    ∀ (pres : Bool) (z y x : Nat),
      (pmap z y x < threshold →
        0 < signed_anisotropic_dt K pmap threshold anisotropy pres z y x)
      ∧ (threshold ≤ pmap z y x →
        signed_anisotropic_dt K pmap threshold anisotropy pres z y x ≤ 0) := by
  intro pres z y x
  constructor
  · intro hlt
    have hm : binary_membranes pmap threshold z y x = false := by
      simp [binary_membranes, not_le.mpr hlt]
    cases pres
    · rw [signed_dt_false_eval]
      have h1 := (hdtM z y x).2 hm
      have h2 := (hdtN z y x).2 hm
      rw [h2, if_neg (lt_irrefl 0), sub_zero]
      exact h1
    · rw [signed_dt_true_eval, if_neg (by rw [hm]; exact Bool.false_ne_true)]
      exact (hdtM z y x).2 hm
  · intro hle
    have hm : binary_membranes pmap threshold z y x = true := by
      simpa [binary_membranes] using hle
    cases pres
    · rw [signed_dt_false_eval]
      have h1 := (hdtM z y x).1 hm
      have h2 := (hdtN z y x).1 hm
      rw [h1, if_pos (lt_of_lt_of_le one_pos h2)]
      linarith
    · rw [signed_dt_true_eval, if_pos hm]
      have := (hp z y x).1
      linarith

/-- The distance-transform kernel used to witness the sign-invariant
contract: distance 1 off the mask (resp. on the mask for the inverted
call) and 0 elsewhere. -/
def signDtK : Kernels :=
  ⟨fun mask bg _ => fun z y x =>
      if bg then (if mask z y x then 0 else 1) else (if mask z y x then 1 else 0),
   fun _ _ => fun _ _ _ => 0,
   fun _ _ => fun _ _ _ => 0,
   fun _ => fun _ _ => false,
   fun _ => fun _ _ => 0,
   fun _ _ => fun _ _ => 0,
   fun _ _ _ => (fun _ _ => 0, 0)⟩

/-- A contrived probability map with a single membrane voxel at the
origin. -/
def pmapOne : Vol := fun z y x => if z = 0 ∧ y = 0 ∧ x = 0 then 1 else 0

theorem signDtK_membrane_contract (pmap : Vol) (th : ℚ) : ∀ z y x : Nat,
    (binary_membranes pmap th z y x = true →
      signDtK.distanceTransform (binary_membranes pmap th) true (1, 1, 1) z y x = 0)
    ∧ (binary_membranes pmap th z y x = false →
      0 < signDtK.distanceTransform (binary_membranes pmap th) true (1, 1, 1) z y x) := by
  intro z y x
  refine ⟨fun hm => ?_, fun hm => ?_⟩
  · show (if binary_membranes pmap th z y x then (0:ℚ) else 1) = 0
    rw [if_pos hm]
  · show (0:ℚ) < if binary_membranes pmap th z y x then 0 else 1
    rw [if_neg (by rw [hm]; exact Bool.false_ne_true)]
    norm_num

theorem signDtK_nonmembrane_contract (pmap : Vol) (th : ℚ) : ∀ z y x : Nat,
    (binary_membranes pmap th z y x = true →
      1 ≤ signDtK.distanceTransform (binary_membranes pmap th) false (1, 1, 1) z y x)
    ∧ (binary_membranes pmap th z y x = false →
      signDtK.distanceTransform (binary_membranes pmap th) false (1, 1, 1) z y x = 0) := by
  intro z y x
  refine ⟨fun hm => ?_, fun hm => ?_⟩
  · show (1:ℚ) ≤ if binary_membranes pmap th z y x then 1 else 0
    rw [if_pos hm]
  · show (if binary_membranes pmap th z y x then (1:ℚ) else 0) = 0
    rw [if_neg (by rw [hm]; exact Bool.false_ne_true)]

theorem signed_dt_sign_invariant_witness :
    signed_anisotropic_dt signDtK pmapOne (1/2) 1 true 0 0 0 ≤ 0
      ∧ 0 < signed_anisotropic_dt signDtK pmapOne (1/2) 1 true 1 0 0
      ∧ signed_anisotropic_dt signDtK pmapOne (1/2) 1 false 0 0 0 ≤ 0
      ∧ 0 < signed_anisotropic_dt signDtK pmapOne (1/2) 1 false 1 0 0 := by
  have h := signed_dt_sign_invariant signDtK pmapOne (1/2) 1
    (by intro z y x; dsimp only [pmapOne]; split_ifs <;> norm_num)
    (signDtK_membrane_contract pmapOne (1/2))
    (signDtK_nonmembrane_contract pmapOne (1/2))
  refine ⟨(h true 0 0 0).2 (by norm_num [pmapOne]),
          (h true 1 0 0).1 (by norm_num [pmapOne]),
          (h false 0 0 0).2 (by norm_num [pmapOne]),
          (h false 1 0 0).1 (by norm_num [pmapOne])⟩

/-- Claim C7: the entry point's shape asserts fail with the invalid-shape
condition for every kernel instantiation whenever the input is not 3D or
its z extent is not strictly the smallest (so the failure precedes and is
independent of any distance-field, seed or watershed computation), and
never fire on an input satisfying the invariant. -/
theorem shape_check_fails_fast (K K' : Kernels) (arr arr' : NDArrayQ)
    (threshold anisotropy sigma_seeds sigma_weights : ℚ) (m : Nat)
    (pres grow grp : Bool)
    (hbad : good_shape arr.shape = false)
    (hgood : good_shape arr'.shape = true) :
    ws_anisotropic_distance_transform K arr threshold anisotropy sigma_seeds
        sigma_weights m pres grow grp = Except.error WsError.invalidShape
      ∧ ∃ out, ws_anisotropic_distance_transform K' arr' threshold anisotropy
          sigma_seeds sigma_weights m pres grow grp = Except.ok out := by
  constructor
  · obtain ⟨shape, data⟩ := arr
    simp only at hbad
    rcases shape with _ | ⟨a, _ | ⟨b, _ | ⟨c, _ | ⟨d, rest⟩⟩⟩⟩
    · rfl
    · rfl
    · rfl
    · simp only [good_shape, Bool.and_eq_false_iff, decide_eq_false_iff_not] at hbad
      show (if a < b ∧ a < c then
          Except.ok (ws_core K (fun z y x => data [z, y, x]) a threshold anisotropy
            sigma_seeds sigma_weights m pres grow grp)
        else Except.error WsError.invalidShape) = Except.error WsError.invalidShape
      rw [if_neg (by tauto)]
    · rfl
  · obtain ⟨shape, data⟩ := arr'
    simp only at hgood
    rcases shape with _ | ⟨a, _ | ⟨b, _ | ⟨c, _ | ⟨d, rest⟩⟩⟩⟩
    · exact (Bool.false_ne_true hgood).elim
    · exact (Bool.false_ne_true hgood).elim
    · exact (Bool.false_ne_true hgood).elim
    · simp only [good_shape, Bool.and_eq_true, decide_eq_true_eq] at hgood
      refine ⟨ws_core K' (fun z y x => data [z, y, x]) a threshold anisotropy
        sigma_seeds sigma_weights m pres grow grp, ?_⟩
      show (if a < b ∧ a < c then
          Except.ok (ws_core K' (fun z y x => data [z, y, x]) a threshold anisotropy
            sigma_seeds sigma_weights m pres grow grp)
        else Except.error WsError.invalidShape)
        = Except.ok (ws_core K' (fun z y x => data [z, y, x]) a threshold anisotropy
            sigma_seeds sigma_weights m pres grow grp)
      rw [if_pos hgood]
    · exact (Bool.false_ne_true hgood).elim

/-- The all-trivial kernel instantiation. -/
def zeroK : Kernels :=
  ⟨fun _ _ _ => fun _ _ _ => 0,
   fun _ _ => fun _ _ _ => 0,
   fun _ _ => fun _ _ _ => 0,
   fun _ => fun _ _ => false,
   fun _ => fun _ _ => 0,
   fun _ _ => fun _ _ => 0,
   fun _ _ _ => (fun _ _ => 0, 0)⟩

theorem shape_check_fails_fast_witness :
    ws_anisotropic_distance_transform zeroK ⟨[2, 2], fun _ => 0⟩ 1 1 1 0 0
        true true false = Except.error WsError.invalidShape
      ∧ ∃ out, ws_anisotropic_distance_transform zeroK ⟨[1, 2, 2], fun _ => 0⟩ 1 1 1 0 0
          true true false = Except.ok out :=
  shape_check_fails_fast zeroK zeroK ⟨[2, 2], fun _ => 0⟩ ⟨[1, 2, 2], fun _ => 0⟩
    1 1 1 0 0 true true false rfl rfl

/-- Claim C9: the pipeline is a deterministic function of its input and its
kernels: two runs whose black-box kernels agree pointwise on every argument
produce identical outputs (the same label volume and segment count). -/
theorem pipeline_deterministic (K K' : Kernels) (arr : NDArrayQ)
    (threshold anisotropy sigma_seeds sigma_weights : ℚ) (m : Nat)
    (pres grow grp : Bool)
    (h1 : ∀ mask bg pitch z y x,
      K.distanceTransform mask bg pitch z y x = K'.distanceTransform mask bg pitch z y x)
    (h2 : ∀ v s z y x, K.gaussianSmoothing3 v s z y x = K'.gaussianSmoothing3 v s z y x)
    (h3 : ∀ v s z y x, K.gaussianSmoothing1 v s z y x = K'.gaussianSmoothing1 v s z y x)
    (h4 : ∀ s y x, K.localMaxima s y x = K'.localMaxima s y x)
    (h5 : ∀ mk y x,
      K.labelMultiArrayWithBackground mk y x = K'.labelMultiArrayWithBackground mk y x)
    (h6 : ∀ mk s y x,
      K.group_seeds_by_distance mk s y x = K'.group_seeds_by_distance mk s y x)
    (h7 : ∀ hs ss n,
      K.iterative_inplace_watershed hs ss n = K'.iterative_inplace_watershed hs ss n) :
    ws_anisotropic_distance_transform K arr threshold anisotropy sigma_seeds
        sigma_weights m pres grow grp
      = ws_anisotropic_distance_transform K' arr threshold anisotropy sigma_seeds
          sigma_weights m pres grow grp := by
  obtain ⟨k1, k2, k3, k4, k5, k6, k7⟩ := K
  obtain ⟨l1, l2, l3, l4, l5, l6, l7⟩ := K'
  have e1 : k1 = l1 := by funext a b c d e f; exact h1 a b c d e f
  have e2 : k2 = l2 := by funext a b c d e; exact h2 a b c d e
  have e3 : k3 = l3 := by funext a b c d e; exact h3 a b c d e
  have e4 : k4 = l4 := by funext a b c; exact h4 a b c
  have e5 : k5 = l5 := by funext a b c; exact h5 a b c
  have e6 : k6 = l6 := by funext a b c d; exact h6 a b c d
  have e7 : k7 = l7 := by funext a b c; exact h7 a b c
  subst e1 e2 e3 e4 e5 e6 e7
  rfl

theorem pipeline_deterministic_witness :
    ws_anisotropic_distance_transform zeroK ⟨[1, 2, 2], fun _ => 0⟩ 1 1 1 0 0
        true true false
      = ws_anisotropic_distance_transform zeroK ⟨[1, 2, 2], fun _ => 0⟩ 1 1 1 0 0
          true true false :=
  pipeline_deterministic zeroK zeroK ⟨[1, 2, 2], fun _ => 0⟩ 1 1 1 0 0 true true false
    (fun _ _ _ _ _ _ => rfl) (fun _ _ _ _ _ => rfl) (fun _ _ _ _ _ => rfl)
    (fun _ _ _ => rfl) (fun _ _ _ => rfl) (fun _ _ _ _ => rfl) (fun _ _ _ => rfl)

/-- Stitched labels are strictly ordered across slices when the per-slice
watershed labels lie in `1..max` and the cumulative count does not exceed
the uint32 range: an earlier slice's stitched value is below a later
slice's. -/
theorem ws_stitch_value_lt (K : Kernels) (hmap : Vol) (seeds : LabelVol)
    (nz m : Nat) (z z' y y' x x' : Nat) (hzz' : z < z') (hz' : z' < nz)
    (hl1 : 1 ≤ (slice_watershed K hmap seeds m z).1 y x)
    (hl2 : (slice_watershed K hmap seeds m z).1 y x ≤ (slice_watershed K hmap seeds m z).2)
    (hl1' : 1 ≤ (slice_watershed K hmap seeds m z').1 y' x')
    (hl2' : (slice_watershed K hmap seeds m z').1 y' x'
      ≤ (slice_watershed K hmap seeds m z').2)
    (hfit : offset_before K hmap seeds m nz ≤ u32) :
    (ws_stitch K hmap seeds nz m).1 z y x < (ws_stitch K hmap seeds nz m).1 z' y' x' := by
  have hz : z < nz := Nat.lt_trans hzz' hz'
  rw [ws_stitch_label K hmap seeds nz m z y x hz,
      ws_stitch_label K hmap seeds nz m z' y' x' hz']
  have hsucc := offset_before_succ K hmap seeds m z
  have hsucc' := offset_before_succ K hmap seeds m z'
  have hmono : offset_before K hmap seeds m (z + 1) ≤ offset_before K hmap seeds m z' :=
    offset_before_mono K hmap seeds m hzz'
  have hmono' : offset_before K hmap seeds m (z' + 1) ≤ offset_before K hmap seeds m nz :=
    offset_before_mono K hmap seeds m hz'
  rw [u32_renumber _ _ hl1 (by omega), u32_renumber _ _ hl1' (by omega)]
  omega

/-- Claim C2 (amended): when every z-slice's watershed labels its voxels
with values in `1..max_z` and the cumulative segment count fits in uint32,
no two distinct z-slices of the stitched volume contain the same positive
label value. -/
theorem stitched_labels_unique_across_slices (K : Kernels) (pmap : Vol)
    (nz ny nx : Nat) (threshold anisotropy sigma_seeds sigma_weights : ℚ)
    (m : Nat) (pres grow grp : Bool)
    (hlab : ∀ z, z < nz → ∀ y, y < ny → ∀ x, x < nx →
      1 ≤ (slice_watershed K
          (ws_hmap K pmap threshold anisotropy sigma_weights pres grow)
          (ws_seeds K pmap nz threshold anisotropy sigma_seeds pres grp) m z).1 y x
      ∧ (slice_watershed K
          (ws_hmap K pmap threshold anisotropy sigma_weights pres grow)
          (ws_seeds K pmap nz threshold anisotropy sigma_seeds pres grp) m z).1 y x
        ≤ (slice_watershed K
          (ws_hmap K pmap threshold anisotropy sigma_weights pres grow)
          (ws_seeds K pmap nz threshold anisotropy sigma_seeds pres grp) m z).2)
    (hfit : offset_before K
        (ws_hmap K pmap threshold anisotropy sigma_weights pres grow)
        (ws_seeds K pmap nz threshold anisotropy sigma_seeds pres grp) m nz ≤ u32)
    (z z' y y' x x' : Nat) (hz : z < nz) (hz' : z' < nz) (hne : z ≠ z')
    (hy : y < ny) (hy' : y' < ny) (hx : x < nx) (hx' : x' < nx)
    (hpos : 0 < (ws_core K pmap nz threshold anisotropy sigma_seeds sigma_weights m
      pres grow grp).1 z y x) :
    (ws_core K pmap nz threshold anisotropy sigma_seeds sigma_weights m
        pres grow grp).1 z y x
      ≠ (ws_core K pmap nz threshold anisotropy sigma_seeds sigma_weights m
        pres grow grp).1 z' y' x' := by
  rw [ws_core_eq]
  obtain ⟨ha1, ha2⟩ := hlab z hz y hy x hx
  obtain ⟨hb1, hb2⟩ := hlab z' hz' y' hy' x' hx'
  rcases Nat.lt_or_ge z z' with hlt | hge
  · exact Nat.ne_of_lt (ws_stitch_value_lt K _ _ nz m z z' y y' x x'
      hlt hz' ha1 ha2 hb1 hb2 hfit)
  · have hlt : z' < z := Nat.lt_of_le_of_ne hge fun h => hne h.symm
    exact (Nat.ne_of_lt (ws_stitch_value_lt K _ _ nz m z' z y' y x' x
      hlt hz hb1 hb2 ha1 ha2 hfit)).symm

/-- A kernel whose slice watershed labels every voxel 2 and reports a
max-label count of 2. -/
def pairWsK : Kernels :=
  ⟨fun _ _ _ => fun _ _ _ => 0,
   fun _ _ => fun _ _ _ => 0,
   fun _ _ => fun _ _ _ => 0,
   fun _ => fun _ _ => false,
   fun _ => fun _ _ => 0,
   fun _ _ => fun _ _ => 0,
   fun _ _ _ => (fun _ _ => 2, 2)⟩

theorem stitched_labels_unique_across_slices_witness :
    (ws_core pairWsK (fun _ _ _ => 0) 2 1 1 1 0 0 true true false).1 0 0 0
      ≠ (ws_core pairWsK (fun _ _ _ => 0) 2 1 1 1 0 0 true true false).1 1 0 0 := by
  refine stitched_labels_unique_across_slices pairWsK (fun _ _ _ => 0) 2 1 1 1 1 1 0 0
    true true false ?_ (by decide) 0 1 0 0 0 0 (by omega) (by omega) (by omega)
    (by omega) (by omega) (by omega) (by omega) (by decide)
  intro z hz y hy x hx
  exact ⟨(by omega : (1:ℕ) ≤ 2), (by omega : (2:ℕ) ≤ 2)⟩

/-- A kernel whose slice watershed labels the 2048x2048 in-plane voxels
consecutively `1..2^22` in row-major order and reports the max-label count
`2^22`, so that 1025 slices accumulate `1025 * 2^22 > 2^32` segments. -/
def bigWsK : Kernels :=
  ⟨fun _ _ _ => fun _ _ _ => 0,
   fun _ _ => fun _ _ _ => 0,
   fun _ _ => fun _ _ _ => 0,
   fun _ => fun _ _ => false,
   fun _ => fun _ _ => 0,
   fun _ _ => fun _ _ => 0,
   fun _ _ _ => (fun y x => y * 2048 + x + 1, 2 ^ 22)⟩

/-- The all-zero probability volume of the overflow scenario. -/
def bigPmap : Vol := fun _ _ _ => 0

/-- The height map the pipeline computes in the overflow scenario. -/
def bigH : Vol := ws_hmap bigWsK bigPmap 1 1 0 true true

/-- The seed volume the pipeline computes in the overflow scenario. -/
def bigS : LabelVol := ws_seeds bigWsK bigPmap 1025 1 1 1 true false

theorem bigWsK_max (w : Nat) : (slice_watershed bigWsK bigH bigS 0 w).2 = 2 ^ 22 := rfl

theorem big_offset_before (z : Nat) :
    offset_before bigWsK bigH bigS 0 z = z * 2 ^ 22 :=
  offset_before_const bigWsK bigH bigS 0 (2 ^ 22) bigWsK_max z

/-- Claim C2 as stated is false on the code: on a 1025x2048x2048 volume
whose per-slice watershed assigns exactly the labels `1..2^22` in every
slice (the claim's hypothesis, witnessed by the bound and surjectivity
conjuncts below), the uint32 offset addition wraps at slice 1024
(offset 1024 * 2^22 = 2^32) and slices 0 and 1024 of the returned volume
both contain the positive label 1. -/
theorem stitched_label_collision_cex :
    (∀ z, z < 1025 → ∀ y, y < 2048 → ∀ x, x < 2048 →
        1 ≤ (slice_watershed bigWsK bigH bigS 0 z).1 y x
        ∧ (slice_watershed bigWsK bigH bigS 0 z).1 y x
            ≤ (slice_watershed bigWsK bigH bigS 0 z).2)
      ∧ (∀ z ℓ, z < 1025 → 1 ≤ ℓ → ℓ ≤ (slice_watershed bigWsK bigH bigS 0 z).2 →
          ∃ y, y < 2048 ∧ ∃ x, x < 2048 ∧ (slice_watershed bigWsK bigH bigS 0 z).1 y x = ℓ)
      ∧ 0 < (ws_core bigWsK bigPmap 1025 1 1 1 0 0 true true false).1 0 0 1
      ∧ (ws_core bigWsK bigPmap 1025 1 1 1 0 0 true true false).1 0 0 1
          = (ws_core bigWsK bigPmap 1025 1 1 1 0 0 true true false).1 1024 0 1 := by
  have hcore : ws_core bigWsK bigPmap 1025 1 1 1 0 0 true true false
      = ws_stitch bigWsK bigH bigS 1025 0 := rfl
  have hv0 : (ws_stitch bigWsK bigH bigS 1025 0).1 0 0 1 = 1 := by
    rw [ws_stitch_label bigWsK bigH bigS 1025 0 0 0 1 (by omega), big_offset_before]
    decide
  have hv1024 : (ws_stitch bigWsK bigH bigS 1025 0).1 1024 0 1 = 1 := by
    rw [ws_stitch_label bigWsK bigH bigS 1025 0 1024 0 1 (by omega), big_offset_before]
    decide
  refine ⟨?_, ?_, ?_, ?_⟩
  · intro z hz y hy x hx
    show 1 ≤ y * 2048 + x + 1 ∧ y * 2048 + x + 1 ≤ 2 ^ 22
    omega
  · intro z ℓ hz h1 h2
    have h2' : ℓ ≤ 2 ^ 22 := h2
    refine ⟨(ℓ - 1) / 2048, by omega, (ℓ - 1) % 2048, by omega, ?_⟩
    show (ℓ - 1) / 2048 * 2048 + (ℓ - 1) % 2048 + 1 = ℓ
    omega
  · rw [hcore, hv0]; omega
  · rw [hcore, hv0, hv1024]

/-- Claim C8 (amended): the pipeline performs no overflow check on the
running offset: even on an input whose cumulative segment count exceeds the
uint32 range used for the stored labels, it completes with `Except.ok`, and
the returned segment count is the exact unbounded sum of the per-slice
counts rather than a wrapped or clamped value (the stored label values, by
contrast, wrap modulo 2^32). -/
theorem no_label_space_exhausted_check (K : Kernels) (arr : NDArrayQ)
    (nz ny nx : Nat) (threshold anisotropy sigma_seeds sigma_weights : ℚ)
    (m : Nat) (pres grow grp : Bool)
    (hshape : arr.shape = [nz, ny, nx]) (hzy : nz < ny) (hzx : nz < nx)
    (hbig : u32 < offset_before K
      (ws_hmap K (fun z y x => arr.data [z, y, x]) threshold anisotropy
        sigma_weights pres grow)
      (ws_seeds K (fun z y x => arr.data [z, y, x]) nz threshold anisotropy
        sigma_seeds pres grp) m nz) :
    ws_anisotropic_distance_transform K arr threshold anisotropy sigma_seeds
        sigma_weights m pres grow grp
      = Except.ok (ws_core K (fun z y x => arr.data [z, y, x]) nz threshold
          anisotropy sigma_seeds sigma_weights m pres grow grp)
      ∧ u32 < (ws_core K (fun z y x => arr.data [z, y, x]) nz threshold
          anisotropy sigma_seeds sigma_weights m pres grow grp).2 := by
  constructor
  · obtain ⟨shape, data⟩ := arr
    simp only at hshape
    subst hshape
    show (if nz < ny ∧ nz < nx then
        Except.ok (ws_core K (fun z y x => data [z, y, x]) nz threshold anisotropy
          sigma_seeds sigma_weights m pres grow grp)
      else Except.error WsError.invalidShape) = _
    rw [if_pos ⟨hzy, hzx⟩]
  · rw [ws_core_eq, ws_stitch_count]
    exact hbig

/-- The numpy array of the overflow scenario: shape 1025x2048x2048, all
zero probabilities. -/
def bigArr : NDArrayQ := ⟨[1025, 2048, 2048], fun _ => 0⟩

/-- Claim C8 as stated is false on the code: on the 1025x2048x2048 overflow
scenario the cumulative segment count 1025 * 2^22 = 4299161600 exceeds
2^32, yet the pipeline completes with `Except.ok` instead of failing with a
label-space-exhausted condition. -/
theorem no_label_space_exhausted_cex :
    u32 < (ws_core bigWsK (fun z y x => bigArr.data [z, y, x]) 1025 1 1 1 0 0
        true true false).2
      ∧ ws_anisotropic_distance_transform bigWsK bigArr 1 1 1 0 0 true true false
          = Except.ok (ws_core bigWsK (fun z y x => bigArr.data [z, y, x]) 1025 1 1 1
              0 0 true true false) := by
  constructor
  · have hcount : (ws_core bigWsK (fun z y x => bigArr.data [z, y, x]) 1025 1 1 1 0 0
        true true false).2 = offset_before bigWsK bigH bigS 0 1025 := by
      rw [show ws_core bigWsK (fun z y x => bigArr.data [z, y, x]) 1025 1 1 1 0 0
          true true false = ws_stitch bigWsK bigH bigS 1025 0 from rfl,
        ws_stitch_count]
    rw [hcount, big_offset_before]
    decide
  · show (if 1025 < 2048 ∧ 1025 < 2048 then
        Except.ok (ws_core bigWsK (fun z y x => bigArr.data [z, y, x]) 1025 1 1 1 0 0
          true true false)
      else Except.error WsError.invalidShape)
      = Except.ok (ws_core bigWsK (fun z y x => bigArr.data [z, y, x]) 1025 1 1 1 0 0
          true true false)
    rw [if_pos (by omega : 1025 < 2048 ∧ 1025 < 2048)]

theorem no_label_space_exhausted_check_witness :
    ws_anisotropic_distance_transform bigWsK bigArr 1 1 1 0 0 true true false
        = Except.ok (ws_core bigWsK (fun z y x => bigArr.data [z, y, x]) 1025 1 1 1
            0 0 true true false)
      ∧ u32 < (ws_core bigWsK (fun z y x => bigArr.data [z, y, x]) 1025 1 1 1
          0 0 true true false).2 := by
  refine no_label_space_exhausted_check bigWsK bigArr 1025 2048 2048 1 1 1 0 0
    true true false rfl (by omega) (by omega) ?_
  have h : offset_before bigWsK
      (ws_hmap bigWsK (fun z y x => bigArr.data [z, y, x]) 1 1 0 true true)
      (ws_seeds bigWsK (fun z y x => bigArr.data [z, y, x]) 1025 1 1 1 true false)
      0 1025 = 1025 * 2 ^ 22 :=
    offset_before_const _ _ _ _ (2 ^ 22) (fun w => rfl) 1025
  rw [h]
  decide

/-- Claim C10: the stitcher's slice renumbering applies the uint32
decrement and offset addition to every voxel, including label 0: a voxel
whose watershed label is 0 leaves the stitcher with label
(offset - 1) mod 2^32 rather than staying 0, so 0 is not preserved as a
reserved background value. -/
theorem stitcher_wraps_zero_labels (K : Kernels) (pmap : Vol) (nz : Nat)
    (threshold anisotropy sigma_seeds sigma_weights : ℚ) (m : Nat)
    (pres grow grp : Bool) (z y x : Nat) (hz : z < nz)
    (h0 : (slice_watershed K
        (ws_hmap K pmap threshold anisotropy sigma_weights pres grow)
        (ws_seeds K pmap nz threshold anisotropy sigma_seeds pres grp) m z).1 y x
      % u32 = 0) :
    ((ws_core K pmap nz threshold anisotropy sigma_seeds sigma_weights m
        pres grow grp).1 z y x : ℤ)
      = ((offset_before K
            (ws_hmap K pmap threshold anisotropy sigma_weights pres grow)
            (ws_seeds K pmap nz threshold anisotropy sigma_seeds pres grp) m z : ℤ)
          - 1) % 2 ^ 32 := by
  rw [ws_core_eq, ws_stitch_label _ _ _ _ _ _ _ _ hz]
  have hu : u32 = 4294967296 := rfl
  simp only [u32_add, u32_dec1, u32_store, hu] at *
  omega

/-- A kernel whose slice watershed labels every voxel 0 and reports a
max-label count of 5. -/
def zeroLabelWsK : Kernels :=
  ⟨fun _ _ _ => fun _ _ _ => 0,
   fun _ _ => fun _ _ _ => 0,
   fun _ _ => fun _ _ _ => 0,
   fun _ => fun _ _ => false,
   fun _ => fun _ _ => 0,
   fun _ _ => fun _ _ => 0,
   fun _ _ _ => (fun _ _ => 0, 5)⟩

theorem stitcher_wraps_zero_labels_witness :
    ((ws_core zeroLabelWsK (fun _ _ _ => 0) 2 1 1 1 0 0 true true false).1 1 0 0 : ℤ)
      = ((5:ℤ) - 1) % 2 ^ 32 := by
  have h := stitcher_wraps_zero_labels zeroLabelWsK (fun _ _ _ => 0) 2 1 1 1 0 0
    true true false 1 0 0 (by omega) rfl
  rw [h, show offset_before zeroLabelWsK
      (ws_hmap zeroLabelWsK (fun _ _ _ => 0) 1 1 0 true true)
      (ws_seeds zeroLabelWsK (fun _ _ _ => 0) 2 1 1 1 true false) 0 1 = 5 from rfl]
  decide

end Watersheds
